import Mathlib

/-!
Verification development for the "second-brain" personal knowledge-capture
assistant: a shallow embedding of `vector_db.py` (the Qdrant knowledge-store
adapter) and `api_backend.py` (the Flask HTTP API), together with proofs of
the behavioural properties of ingestion, retrieval-augmented query handling,
initialization status, chat history and database clearing.

Modelling conventions:
* Python dicts (metadata payloads) are insertion-ordered association lists
  `List (String × String)` with last-write-wins key update.
* `uuid.uuid4()` is modelled as a draw from a fresh-id counter (`World.nextUuid`);
  freshness of uuids relative to stored points is an explicit hypothesis where
  a theorem needs it.
* `datetime.now().isoformat()` is modelled as a strictly increasing clock
  (`World.tick`); each call returns the current tick rendered as a string and
  advances the clock.
* The Qdrant service is a map from collection names to collections; `upsert`
  replaces a point whose id is already stored and appends otherwise.
* Embedding models and the LLM are black boxes: arbitrary functions carried as
  fields / parameters.
-/

/-- Python dict with string keys and string values, as an insertion-ordered
association list. -/
abbrev Meta := List (String × String)

/-- `m[k]` lookup: first binding of `k` wins (our `dictSet` keeps keys unique,
matching Python dict semantics). -/
def dictGet (m : Meta) (k : String) : Option String :=
  match m with
  | [] => none
  | (k2, v) :: rest => if k2 = k then some v else dictGet rest k

/-- `m[k] = v`: update in place if the key is present, else append
(Python dicts preserve insertion order). -/
def dictSet (m : Meta) (k : String) (v : String) : Meta :=
  match m with
  | [] => [(k, v)]
  | (k2, v2) :: rest => if k2 = k then (k2, v) :: rest else (k2, v2) :: dictSet rest k v

theorem dictGet_dictSet_same (m : Meta) (k v : String) :
    dictGet (dictSet m k v) k = some v := by
  induction m with
  | nil => simp [dictSet, dictGet]
  | cons hd tl ih =>
      obtain ⟨k2, v2⟩ := hd
      by_cases h : k2 = k
      · simp [dictSet, dictGet, h]
      · simp [dictSet, dictGet, h, ih]

theorem dictGet_dictSet_other (m : Meta) (k k2 v : String) (h : k2 ≠ k) :
    dictGet (dictSet m k v) k2 = dictGet m k2 := by
  have hks : k ≠ k2 := fun hh => h hh.symm
  induction m with
  | nil => simp [dictSet, dictGet, hks]
  | cons hd tl ih =>
      obtain ⟨k3, v3⟩ := hd
      by_cases h3 : k3 = k
      · subst h3
        simp [dictSet, dictGet, hks]
      · by_cases h4 : k3 = k2 <;> simp [dictSet, dictGet, h3, h4, h, ih]

/-- Ambient process state: the wall clock (`datetime.now`) and the source of
fresh point ids (`uuid.uuid4`). -/
structure World where
  tick : Nat
  nextUuid : Nat
deriving DecidableEq, Repr

/-- `datetime.now().isoformat()`: renders the current tick and advances the
clock. -/
def isoNow (w : World) : String × World :=
  ("ts" ++ toString w.tick, { w with tick := w.tick + 1 })

/-- `str(uuid.uuid4())`: a fresh point id, modelled as the next counter value. -/
def uuid4 (w : World) : Nat × World :=
  (w.nextUuid, { w with nextUuid := w.nextUuid + 1 })

/-- Qdrant distance metric for a collection. -/
inductive Distance where
  | cosine
  | euclid
deriving DecidableEq, Repr

/-- A stored Qdrant point: id, embedding vector, payload. -/
structure PointStruct where
  id : Nat
  vector : List Int
  payload : Meta
deriving DecidableEq, Repr

/-- A Qdrant collection: vector configuration plus stored points. -/
structure CollectionInfo where
  dim : Nat
  distance : Distance
  points : List PointStruct
deriving DecidableEq, Repr

/-- The Qdrant service state: named collections. -/
structure QdrantState where
  collections : List (String × CollectionInfo)
deriving DecidableEq, Repr

/-- First collection bound to a name, if any. -/
def assocFind (name : String) (l : List (String × CollectionInfo)) : Option CollectionInfo :=
  match l with
  | [] => none
  | (n, c) :: rest => if n = name then some c else assocFind name rest

/-- Upsert of one point into a point list: replace the point with the same id
if present, append otherwise. -/
def upsertPoint (pts : List PointStruct) (p : PointStruct) : List PointStruct :=
  if pts.any (fun q => q.id = p.id) then
    pts.map (fun q => if q.id = p.id then p else q)
  else pts ++ [p]

/-- `client.upsert(collection_name, points)`: fold the points into the named
collection (a no-op when the collection is absent; the adapter only upserts
after ensuring the collection exists). -/
def QdrantState.upsert (s : QdrantState) (name : String) (ps : List PointStruct) :
    QdrantState :=
  ⟨s.collections.map (fun nc =>
    if nc.1 = name then (nc.1, { nc.2 with points := ps.foldl upsertPoint nc.2.points })
    else nc)⟩

/-- `client.delete_collection(name)`: drop every binding of the name. -/
def QdrantState.deleteCollection (s : QdrantState) (name : String) : QdrantState :=
  ⟨s.collections.filter (fun nc => nc.1 ≠ name)⟩

/-- The `VectorDatabase` object of `vector_db.py`: collection name, the
embedding model's output dimension, and the embedding model itself
(`SentenceTransformer.encode`, a black box). -/
structure VectorDatabase where
  collection_name : String
  embedding_dim : Nat
  embed : String → List Int

namespace VectorDatabase

/-- `VectorDatabase._create_collection_if_not_exists`: create the collection
with the embedding dimension and cosine distance when the name is not among
the existing collections, otherwise do nothing. -/
def create_collection_if_not_exists (db : VectorDatabase) (q : QdrantState) :
    QdrantState :=
  let collection_names := q.collections.map Prod.fst
  if db.collection_name ∈ collection_names then q
  else ⟨q.collections ++ [(db.collection_name, ⟨db.embedding_dim, Distance.cosine, []⟩)]⟩

/-- `VectorDatabase.add_text(text, metadata=None)`: embed the text, draw a
fresh id, default the metadata to `{}`, stamp a timestamp when the caller did
not supply one, store the original text under key `"text"`, and upsert the
single resulting point. Returns the point id with the updated store and world. -/
def add_text (db : VectorDatabase) (text : String) (metadata : Option Meta)
    (q : QdrantState) (w : World) : Nat × QdrantState × World :=
  let embedding := db.embed text
  let (point_id, w) := uuid4 w
  let metadata := metadata.getD []
  let (metadata, w) :=
    match dictGet metadata "timestamp" with
    | some _ => (metadata, w)
    | none =>
        let (ts, w) := isoNow w
        (dictSet metadata "timestamp" ts, w)
  let metadata := dictSet metadata "text" text
  (point_id, q.upsert db.collection_name [⟨point_id, embedding, metadata⟩], w)

/-- Loop body of `add_texts_batch` when the caller supplied a metadata list:
each text is zipped with its own dict. `datetime.now()` appears as an eagerly
evaluated default argument of `metadata.get`, so the clock advances every
iteration even when the stamp is discarded. -/
def batchLoopOwn (embed : String → List Int) (w : World) (pairs : List (String × Meta)) :
    List PointStruct × World :=
  match pairs with
  | [] => ([], w)
  | (text, metadata) :: rest =>
      let (point_id, w) := uuid4 w
      let (d, w) := isoNow w
      let metadata := dictSet metadata "timestamp" ((dictGet metadata "timestamp").getD d)
      let metadata := dictSet metadata "text" text
      let (ps, w) := batchLoopOwn embed w rest
      (⟨point_id, embed text, metadata⟩ :: ps, w)

/-- Loop body of `add_texts_batch` when `metadatas is None`. The source builds
the defaults as `[{}] * len(texts)`, which is `len(texts)` references to ONE
shared dict; the loop therefore mutates a single dict, snapshotting it into
each point's payload (the Qdrant client validates payloads into fresh dicts at
`PointStruct` construction). We model this by threading the one shared dict. -/
def batchLoopShared (embed : String → List Int) (w : World) (texts : List String)
    (shared : Meta) : List PointStruct × World :=
  match texts with
  | [] => ([], w)
  | text :: rest =>
      let (point_id, w) := uuid4 w
      let (d, w) := isoNow w
      let shared := dictSet shared "timestamp" ((dictGet shared "timestamp").getD d)
      let shared := dictSet shared "text" text
      let (ps, w) := batchLoopShared embed w rest shared
      (⟨point_id, embed text, shared⟩ :: ps, w)

/-- `VectorDatabase.add_texts_batch(texts, metadatas=None)`: embed all texts,
build one point per text (see the two loop bodies for the defaulted and the
supplied-metadata cases), upsert them as one batch, and return the ids. -/
def add_texts_batch (db : VectorDatabase) (texts : List String)
    (metadatas : Option (List Meta)) (q : QdrantState) (w : World) :
    List Nat × QdrantState × World :=
  let (points, w) :=
    match metadatas with
    | none => batchLoopShared db.embed w texts []
    | some ms => batchLoopOwn db.embed w (texts.zip ms)
  (points.map (fun p => p.id), q.upsert db.collection_name points, w)

/-- Statistics returned by `VectorDatabase.get_stats` (via
`client.get_collection`). -/
structure CollectionStats where
  total_points : Nat
  vectors_count : Nat
  status : String
deriving DecidableEq, Repr

/-- `VectorDatabase.get_stats`: point counts and status of the collection;
raises (here: `Except.error`) when the collection does not exist. -/
def get_stats (db : VectorDatabase) (q : QdrantState) : Except String CollectionStats :=
  match assocFind db.collection_name q.collections with
  | none => .error "collection not found"
  | some c => .ok ⟨c.points.length, c.points.length, "green"⟩

/-- `VectorDatabase.delete_collection`: remove the whole collection. -/
def delete_collection (db : VectorDatabase) (q : QdrantState) : QdrantState :=
  q.deleteCollection db.collection_name

end VectorDatabase

/-! ### The LangChain layer (external library, modelled from the spec)

`api_backend.initialize_components` wraps the store in a LangChain `Qdrant`
vector store with `content_payload_key="text"`, builds a retriever with
`search_kwargs={"k": 3}`, and a `RetrievalQA` chain with
`return_source_documents=True`. That library code is not part of this
repository; the definitions below model it from the spec: "fetch top-3 nearest
stored records; build a context-augmented prompt combining the retrieved texts
and the question; invoke the language model once to produce a free-text
answer". -/

/-- A LangChain document: page content plus metadata. -/
structure Document where
  page_content : String
  metadata : Meta
deriving DecidableEq, Repr

/-- Modelled from the spec: the vector store is configured with
`content_payload_key="text"`, so a retrieved point surfaces as a document whose
`page_content` is the payload's `"text"` entry, carrying the payload as its
metadata. -/
def pointToDocument (p : PointStruct) : Document :=
  ⟨(dictGet p.payload "text").getD "", p.payload⟩

/-- Inner product of two embedding vectors (the similarity score the
nearest-neighbor search ranks by; the embedding model is a black box, so any
fixed scoring of vectors is faithful). -/
def dot : List Int → List Int → Int
  | [], _ => 0
  | _ :: _, [] => 0
  | a :: as, b :: bs => a * b + dot as bs

/-- Similarity of a stored point to a query embedding. -/
def simScore (queryVec : List Int) (p : PointStruct) : Int := dot queryVec p.vector

/-- "At least as similar as": the ranking relation of the retriever. -/
def scoreRel (f : PointStruct → Int) : PointStruct → PointStruct → Prop :=
  fun a b => f a ≥ f b

instance (f : PointStruct → Int) : DecidableRel (scoreRel f) :=
  fun a b => inferInstanceAs (Decidable (f a ≥ f b))

instance (f : PointStruct → Int) : IsTotal PointStruct (scoreRel f) :=
  ⟨fun a b => le_total (f b) (f a)⟩

instance (f : PointStruct → Int) : IsTrans PointStruct (scoreRel f) :=
  ⟨fun _ _ _ h1 h2 => le_trans h2 h1⟩

/-- Modelled from the spec: `vector_store.as_retriever(search_kwargs={"k": 3})`
fetches the top-3 stored records nearest to the query embedding, most similar
first. -/
def retrieveTop3 (db : VectorDatabase) (q : QdrantState) (question : String) :
    List PointStruct :=
  match assocFind db.collection_name q.collections with
  | none => []
  | some c =>
      (List.insertionSort (scoreRel (simScore (db.embed question))) c.points).take 3

/-- Modelled from the spec: the context-augmented prompt combining the
retrieved texts and the question. -/
def buildPrompt (docs : List Document) (question : String) : String :=
  String.intercalate "\n\n" (docs.map Document.page_content) ++
    "\n\nQuestion: " ++ question

/-- Output of one `qa_chain.invoke({"query": ...})` call, with an explicit
count of language-model invocations made while producing it. -/
structure QaOutput where
  result : String
  source_documents : List Document
  llm_calls : Nat
deriving Repr

/-- Modelled from the spec: the `RetrievalQA` chain retrieves the top-3
records, builds one prompt from them and the question, and invokes the
language model exactly once; with `return_source_documents=True` the retrieved
documents are returned alongside the answer. -/
def qa_chain_invoke (db : VectorDatabase) (llm : String → String) (qst : QdrantState)
    (question : String) : QaOutput :=
  let retrieved := (retrieveTop3 db qst question).map pointToDocument
  ⟨llm (buildPrompt retrieved question), retrieved, 1⟩

/-- Python `str.strip()`: drop leading and trailing whitespace characters
(modelled over the character list so it evaluates by kernel reduction). -/
def pyStrip (s : String) : String :=
  ⟨((s.data.dropWhile Char.isWhitespace).reverse.dropWhile Char.isWhitespace).reverse⟩

/-! ### The Flask API backend (`api_backend.py`) -/

/-- JSON values as produced by `jsonify`. -/
inductive Json where
  | str : String → Json
  | bool : Bool → Json
  | num : Nat → Json
  | arr : List Json → Json
  | obj : List (String × Json) → Json

/-- An HTTP response: status code and JSON body. -/
structure HttpResponse where
  code : Nat
  body : Json

/-- The module-level `initialization_status` dict. -/
structure InitStatus where
  ready : Bool
  message : String
deriving DecidableEq, Repr

/-- One entry of the module-level `chat_history` list. -/
structure ChatTurn where
  role : String
  content : String
deriving DecidableEq, Repr

/-- What `qa_chain.invoke` hands back to the `query` route: the answer under
`'result'` and the retrieved documents under `'source_documents'`. -/
structure RagResult where
  result : String
  source_documents : List Document
deriving DecidableEq, Repr

/-- The backend's process-wide mutable state: `initialization_status`,
`chat_history`, the `vector_db` global (None until initialization sets it),
plus the world it acts on (the Qdrant service, clock and id source). -/
structure BackendState where
  initialization_status : InitStatus
  chat_history : List ChatTurn
  vector_db : Option VectorDatabase
  qdrant : QdrantState
  world : World

/-- Module state right after import: `{"ready": False, "message":
"Initializing..."}`, empty chat history, `vector_db = None`. -/
def initialBackendState (q : QdrantState) (w : World) : BackendState :=
  ⟨⟨false, "Initializing..."⟩, [], none, q, w⟩

namespace ApiBackend

/-- Render a metadata dict as the JSON object `jsonify` produces for it. -/
def metaToJson (m : Meta) : Json :=
  .obj (m.map (fun kv => (kv.1, Json.str kv.2)))

/-- `GET /api/health`. -/
def health_check (st : BackendState) : HttpResponse × BackendState :=
  (⟨200, .obj [("status", .str "ok"),
               ("initialized", .bool st.initialization_status.ready),
               ("message", .str st.initialization_status.message)]⟩, st)

/-- `POST /api/query`: 503 before initialization is ready (the chain is not
consulted), 400 when the body's `query` field is missing or empty, 500 with
the stringified exception when `qa_chain.invoke` raises, otherwise 200 with
the answer, up to 2 sources truncated to 150 characters, and two new chat
turns. `body_query` is the `data.get('query', '')` value; `qa_chain` is the
(possibly raising) chain invocation. -/
def query (st : BackendState) (body_query : Option String)
    (qa_chain : String → Except String RagResult) : HttpResponse × BackendState :=
  if !st.initialization_status.ready then
    (⟨503, .obj [("error", .str "System not ready yet"),
                 ("message", .str st.initialization_status.message)]⟩, st)
  else
    let user_query := body_query.getD ""
    if user_query = "" then
      (⟨400, .obj [("error", .str "No query provided")]⟩, st)
    else
      match qa_chain user_query with
      | .error e =>
          (⟨500, .obj [("error", .str e), ("success", .bool false)]⟩, st)
      | .ok response =>
          let answer := response.result
          let sources := (response.source_documents.take 2).map (fun doc =>
            Json.obj [("content", .str (doc.page_content.take 150)),
                      ("metadata", metaToJson doc.metadata)])
          (⟨200, .obj [("response", .str answer),
                       ("sources", .arr sources),
                       ("success", .bool true)]⟩,
           { st with chat_history := st.chat_history ++
               [⟨"user", user_query⟩, ⟨"assistant", answer⟩] })

/-- `POST /api/capture/full`: 503 while `vector_db` is None; otherwise run
OCR (`ocr_result`; `Except.error` models a raised exception → 500), reject
extracted text whose strip is shorter than 10 characters, else store one point
via `add_text` with `{"source": "screenshot_full"}`. -/
def capture_full_screen (st : BackendState) (ocr_result : Except String String) :
    HttpResponse × BackendState :=
  match st.vector_db with
  | none => (⟨503, .obj [("error", .str "Vector database not ready")]⟩, st)
  | some db =>
      match ocr_result with
      | .error e =>
          (⟨500, .obj [("success", .bool false), ("error", .str e)]⟩, st)
      | .ok text =>
          if text = "" ∨ (pyStrip text).length < 10 then
            (⟨200, .obj [("success", .bool false),
                         ("message", .str "No meaningful text found")]⟩, st)
          else
            let r := db.add_text text (some [("source", "screenshot_full")])
                       st.qdrant st.world
            (⟨200, .obj [("success", .bool true),
                         ("message", .str ("Captured " ++ toString text.length
                            ++ " characters")),
                         ("text_length", .num text.length)]⟩,
             { st with qdrant := r.2.1, world := r.2.2 })

/-- `GET /api/stats`. -/
def get_stats (st : BackendState) : HttpResponse × BackendState :=
  match st.vector_db with
  | none => (⟨503, .obj [("error", .str "Vector database not ready")]⟩, st)
  | some db =>
      match db.get_stats st.qdrant with
      | .error e => (⟨500, .obj [("success", .bool false), ("error", .str e)]⟩, st)
      | .ok s =>
          (⟨200, .obj [("success", .bool true),
                       ("stats", .obj [("total_points", .num s.total_points),
                                       ("vectors_count", .num s.vectors_count),
                                       ("status", .str s.status)])]⟩, st)

/-- `GET /api/history`. -/
def get_history (st : BackendState) : HttpResponse × BackendState :=
  (⟨200, .obj [("history", .arr (st.chat_history.map (fun t =>
      .obj [("role", .str t.role), ("content", .str t.content)])))]⟩, st)

/-- `DELETE /api/history`: reset `chat_history` to the empty list. -/
def clear_history (st : BackendState) : HttpResponse × BackendState :=
  (⟨200, .obj [("success", .bool true)]⟩, { st with chat_history := [] })

/-- `DELETE /api/database`: delete the collection, then re-create it. -/
def clear_database (st : BackendState) : HttpResponse × BackendState :=
  match st.vector_db with
  | none => (⟨503, .obj [("error", .str "Vector database not ready")]⟩, st)
  | some db =>
      let q := db.delete_collection st.qdrant
      let q := db.create_collection_if_not_exists q
      (⟨200, .obj [("success", .bool true), ("message", .str "Database cleared")]⟩,
       { st with qdrant := q })

/-- `initialize_components`, run once in a background thread: on success the
globals are set and the status becomes ready with the success message; when
any step raises, the status records the stringified error and stays not-ready.
`outcome` is the result of the try block (the constructed database on
success). -/
def initialize_components (st : BackendState) (outcome : Except String VectorDatabase) :
    BackendState :=
  match outcome with
  | .ok db =>
      { st with vector_db := some db,
                initialization_status := ⟨true, "All systems ready! 🎉"⟩ }
  | .error e =>
      { st with initialization_status := ⟨false, "Error: " ++ e⟩ }

/-- One event in the life of the backend process: the completion of the
background initialization thread, or one HTTP request (each request carries
the external inputs its handler consumes). -/
inductive Event where
  | initComplete (outcome : Except String VectorDatabase)
  | healthReq
  | queryReq (body_query : Option String) (qa_chain : String → Except String RagResult)
  | captureReq (ocr_result : Except String String)
  | statsReq
  | historyGetReq
  | historyClearReq
  | databaseClearReq

/-- Whether an event is the initialization completion. -/
def Event.isInit : Event → Bool
  | .initComplete _ => true
  | _ => false

/-- State transition of one event. -/
def applyEvent (st : BackendState) (e : Event) : BackendState :=
  match e with
  | .initComplete outcome => initialize_components st outcome
  | .healthReq => (health_check st).2
  | .queryReq b c => (query st b c).2
  | .captureReq o => (capture_full_screen st o).2
  | .statsReq => (get_stats st).2
  | .historyGetReq => (get_history st).2
  | .historyClearReq => (clear_history st).2
  | .databaseClearReq => (clear_database st).2

end ApiBackend

/-! ### Store-level helper lemmas -/

theorem assocFind_upsert (s : QdrantState) (name : String) (ps : List PointStruct) :
    assocFind name (s.upsert name ps).collections =
      (assocFind name s.collections).map
        (fun c => { c with points := ps.foldl upsertPoint c.points }) := by
  obtain ⟨l⟩ := s
  simp only [QdrantState.upsert]
  induction l with
  | nil => rfl
  | cons hd tl ih =>
      obtain ⟨n, c⟩ := hd
      rw [List.map_cons]
      by_cases h : n = name
      · subst h
        rw [if_pos rfl]
        simp [assocFind]
      · rw [if_neg h]
        simp only [assocFind]
        rw [if_neg h, if_neg h]
        exact ih

theorem upsertPoint_fresh (pts : List PointStruct) (p : PointStruct)
    (h : ∀ q ∈ pts, q.id ≠ p.id) : upsertPoint pts p = pts ++ [p] := by
  unfold upsertPoint
  rw [if_neg]
  simp only [List.any_eq_true, decide_eq_true_eq, not_exists, not_and]
  intro x hx
  exact h x hx

theorem foldl_upsert_fresh (news : List PointStruct) :
    ∀ olds : List PointStruct,
      (∀ p ∈ news, ∀ q ∈ olds, q.id ≠ p.id) →
      (news.map (fun p => p.id)).Nodup →
      news.foldl upsertPoint olds = olds ++ news := by
  induction news with
  | nil => intro olds _ _; simp
  | cons p ps ih =>
      intro olds hfresh hnodup
      have hstep : upsertPoint olds p = olds ++ [p] :=
        upsertPoint_fresh olds p (fun q hq => hfresh p (by simp) q hq)
      have hnodup2 : p.id ∉ ps.map (fun p => p.id) ∧ (ps.map (fun p => p.id)).Nodup := by
        rw [List.map_cons] at hnodup
        exact List.nodup_cons.mp hnodup
      have hnodup' : (ps.map (fun p => p.id)).Nodup := hnodup2.2
      have hpid : p.id ∉ ps.map (fun p => p.id) := hnodup2.1
      have hrest : ∀ x ∈ ps, ∀ q ∈ olds ++ [p], q.id ≠ x.id := by
        intro x hx q hq
        rcases List.mem_append.mp hq with hq | hq
        · exact hfresh x (by simp [hx]) q hq
        · have hqp : q = p := by simpa using hq
          subst hqp
          intro hcontr
          exact hpid (by exact List.mem_map.mpr ⟨x, hx, hcontr.symm⟩)
      calc (p :: ps).foldl upsertPoint olds
          = ps.foldl upsertPoint (upsertPoint olds p) := rfl
        _ = ps.foldl upsertPoint (olds ++ [p]) := by rw [hstep]
        _ = (olds ++ [p]) ++ ps := ih (olds ++ [p]) hrest hnodup'
        _ = olds ++ (p :: ps) := by simp

/-- Full characterization of one `add_text` call on a store whose collection
exists and whose stored ids are all below the uuid counter: the returned id is
the fresh counter value, exactly the one new point is appended, its payload
holds the text under `"text"`, keeps a caller-supplied timestamp, stamps the
current time otherwise, and preserves every other caller-supplied key. -/
theorem add_text_characterization (db : VectorDatabase) (text : String)
    (m : Option Meta) (q : QdrantState) (w : World) (c : CollectionInfo)
    (hc : assocFind db.collection_name q.collections = some c)
    (hfresh : ∀ p ∈ c.points, p.id < w.nextUuid) :
    ∃ pt : PointStruct,
      (db.add_text text m q w).1 = pt.id ∧
      pt.id = w.nextUuid ∧
      assocFind db.collection_name ((db.add_text text m q w).2.1).collections =
        some { c with points := c.points ++ [pt] } ∧
      dictGet pt.payload "text" = some text ∧
      (∀ ts, dictGet (m.getD []) "timestamp" = some ts →
        dictGet pt.payload "timestamp" = some ts) ∧
      (dictGet (m.getD []) "timestamp" = none →
        dictGet pt.payload "timestamp" = some ("ts" ++ toString w.tick)) ∧
      (∀ k v, k ≠ "text" → dictGet (m.getD []) k = some v →
        dictGet pt.payload k = some v) := by
  have happend : ∀ payload : Meta,
      (⟨w.nextUuid, db.embed text, payload⟩ : PointStruct).id ∉
        c.points.map PointStruct.id →
      assocFind db.collection_name
          ((q.upsert db.collection_name
            [⟨w.nextUuid, db.embed text, payload⟩]).collections) =
        some { c with points := c.points ++ [⟨w.nextUuid, db.embed text, payload⟩] } := by
    intro payload _
    rw [assocFind_upsert, hc]
    have h1 : upsertPoint c.points (⟨w.nextUuid, db.embed text, payload⟩ : PointStruct) =
        c.points ++ [⟨w.nextUuid, db.embed text, payload⟩] :=
      upsertPoint_fresh _ _ (fun p hp => Nat.ne_of_lt (hfresh p hp))
    simp [h1]
  have hnotmem : ∀ payload : Meta,
      (⟨w.nextUuid, db.embed text, payload⟩ : PointStruct).id ∉
        c.points.map PointStruct.id := by
    intro payload hmem
    rcases List.mem_map.mp hmem with ⟨p, hp, hpid⟩
    exact absurd hpid (Nat.ne_of_lt (hfresh p hp))
  rcases hts : dictGet (m.getD []) "timestamp" with _ | ts
  · refine ⟨⟨w.nextUuid, db.embed text,
      dictSet (dictSet (m.getD []) "timestamp" ("ts" ++ toString w.tick)) "text" text⟩,
      ?_, rfl, ?_, ?_, ?_, ?_, ?_⟩
    · simp [VectorDatabase.add_text, uuid4, isoNow, hts]
    · simp only [VectorDatabase.add_text, uuid4, isoNow, hts]
      exact happend _ (hnotmem _)
    · exact dictGet_dictSet_same _ _ _
    · intro ts2 hts2
      exact Option.noConfusion hts2
    · intro _
      rw [dictGet_dictSet_other _ _ _ _ (by decide)]
      exact dictGet_dictSet_same _ _ _
    · intro k v hk hkv
      rw [dictGet_dictSet_other _ _ _ _ hk]
      by_cases hkts : k = "timestamp"
      · subst hkts; rw [hts] at hkv; cases hkv
      · rw [dictGet_dictSet_other _ _ _ _ hkts]
        exact hkv
  · refine ⟨⟨w.nextUuid, db.embed text, dictSet (m.getD []) "text" text⟩,
      ?_, rfl, ?_, ?_, ?_, ?_, ?_⟩
    · simp [VectorDatabase.add_text, uuid4, isoNow, hts]
    · simp only [VectorDatabase.add_text, uuid4, isoNow, hts]
      exact happend _ (hnotmem _)
    · exact dictGet_dictSet_same _ _ _
    · intro ts2 hts2
      cases hts2
      rw [dictGet_dictSet_other _ _ _ _ (by decide)]
      exact hts
    · intro hcontr
      exact Option.noConfusion hcontr
    · intro k v hk hkv
      rw [dictGet_dictSet_other _ _ _ _ hk]
      exact hkv

/-! ### Batch-loop lemmas -/

theorem batchLoopShared_cons (embed : String → List Int) (w : World) (t : String)
    (ts : List String) (shared : Meta) :
    VectorDatabase.batchLoopShared embed w (t :: ts) shared =
      (⟨w.nextUuid, embed t,
          dictSet (dictSet shared "timestamp"
            ((dictGet shared "timestamp").getD ("ts" ++ toString w.tick))) "text" t⟩ ::
        (VectorDatabase.batchLoopShared embed ⟨w.tick + 1, w.nextUuid + 1⟩ ts
          (dictSet (dictSet shared "timestamp"
            ((dictGet shared "timestamp").getD ("ts" ++ toString w.tick))) "text" t)).1,
       (VectorDatabase.batchLoopShared embed ⟨w.tick + 1, w.nextUuid + 1⟩ ts
          (dictSet (dictSet shared "timestamp"
            ((dictGet shared "timestamp").getD ("ts" ++ toString w.tick))) "text" t)).2) :=
  rfl

theorem batchLoopOwn_cons (embed : String → List Int) (w : World) (t : String)
    (m : Meta) (rest : List (String × Meta)) :
    VectorDatabase.batchLoopOwn embed w ((t, m) :: rest) =
      (⟨w.nextUuid, embed t,
          dictSet (dictSet m "timestamp"
            ((dictGet m "timestamp").getD ("ts" ++ toString w.tick))) "text" t⟩ ::
        (VectorDatabase.batchLoopOwn embed ⟨w.tick + 1, w.nextUuid + 1⟩ rest).1,
       (VectorDatabase.batchLoopOwn embed ⟨w.tick + 1, w.nextUuid + 1⟩ rest).2) :=
  rfl

theorem batchLoopShared_facts (embed : String → List Int) :
    ∀ (texts : List String) (w : World) (shared : Meta),
      ((VectorDatabase.batchLoopShared embed w texts shared).1.map
          (fun p => p.id)).length = texts.length ∧
      (∀ p ∈ (VectorDatabase.batchLoopShared embed w texts shared).1,
        w.nextUuid ≤ p.id) ∧
      ((VectorDatabase.batchLoopShared embed w texts shared).1.map
          (fun p => p.id)).Nodup := by
  intro texts
  induction texts with
  | nil =>
      intro w shared
      simp [VectorDatabase.batchLoopShared]
  | cons t ts ih =>
      intro w shared
      rw [batchLoopShared_cons]
      obtain ⟨hlen, hlow, hnodup⟩ := ih ⟨w.tick + 1, w.nextUuid + 1⟩
        (dictSet (dictSet shared "timestamp"
          ((dictGet shared "timestamp").getD ("ts" ++ toString w.tick))) "text" t)
      refine ⟨by simpa using hlen, ?_, ?_⟩
      · intro p hp
        rcases List.mem_cons.mp hp with hp | hp
        · subst hp
          exact Nat.le_refl _
        · have h2 : w.nextUuid + 1 ≤ p.id := hlow p hp
          omega
      · rw [List.map_cons]
        refine List.nodup_cons.mpr ⟨?_, hnodup⟩
        intro hmem
        rcases List.mem_map.mp hmem with ⟨p, hp, hpid⟩
        have h2 : w.nextUuid + 1 ≤ p.id := hlow p hp
        have h3 : p.id = w.nextUuid := hpid
        omega

theorem batchLoopOwn_facts (embed : String → List Int) :
    ∀ (pairs : List (String × Meta)) (w : World),
      ((VectorDatabase.batchLoopOwn embed w pairs).1.map
          (fun p => p.id)).length = pairs.length ∧
      (∀ p ∈ (VectorDatabase.batchLoopOwn embed w pairs).1,
        w.nextUuid ≤ p.id) ∧
      ((VectorDatabase.batchLoopOwn embed w pairs).1.map
          (fun p => p.id)).Nodup := by
  intro pairs
  induction pairs with
  | nil =>
      intro w
      simp [VectorDatabase.batchLoopOwn]
  | cons pr rest ih =>
      intro w
      obtain ⟨t, m⟩ := pr
      rw [batchLoopOwn_cons]
      obtain ⟨hlen, hlow, hnodup⟩ := ih ⟨w.tick + 1, w.nextUuid + 1⟩
      refine ⟨by simpa using hlen, ?_, ?_⟩
      · intro p hp
        rcases List.mem_cons.mp hp with hp | hp
        · subst hp
          exact Nat.le_refl _
        · have h2 : w.nextUuid + 1 ≤ p.id := hlow p hp
          omega
      · rw [List.map_cons]
        refine List.nodup_cons.mpr ⟨?_, hnodup⟩
        intro hmem
        rcases List.mem_map.mp hmem with ⟨p, hp, hpid⟩
        have h2 : w.nextUuid + 1 ≤ p.id := hlow p hp
        have h3 : p.id = w.nextUuid := hpid
        omega

/-- Modelled from the spec: reference behaviour of `addTextsBatch` with
`metadatas` absent — "a default empty metadata per text". Each text is paired
with its OWN fresh empty dict and processed exactly as the batch loop
processes a caller-supplied dict. Compare with `add_texts_batch`, whose
Python default `[{}] * len(texts)` aliases one shared dict across all texts. -/
def VectorDatabase.add_texts_batch_each (db : VectorDatabase) (texts : List String)
    (q : QdrantState) (w : World) : List Nat × QdrantState × World :=
  let r := VectorDatabase.batchLoopOwn db.embed w (texts.map (fun t => (t, [])))
  (r.1.map (fun p => p.id), q.upsert db.collection_name r.1, r.2)

/-- The `qa_chain` global exactly as the query route invokes it: a non-raising
call of the modelled RetrievalQA chain, yielding the answer under `result` and
the retrieved documents under `source_documents`. -/
def qaChainOf (db : VectorDatabase) (llm : String → String) (qst : QdrantState) :
    String → Except String RagResult :=
  fun q2 => .ok ⟨(qa_chain_invoke db llm qst q2).result,
                 (qa_chain_invoke db llm qst q2).source_documents⟩

/-! ### Concrete fixtures used by the witness theorems -/

def demoEmbed : String → List Int := fun s => [Int.ofNat s.length]

def demoDb : VectorDatabase := ⟨"book_knowledge", 384, demoEmbed⟩

def demoEmptyQ : QdrantState := ⟨[("book_knowledge", ⟨384, Distance.cosine, []⟩)]⟩

def demoPoints : List PointStruct :=
  [⟨0, [3], [("text", "alpha")]⟩, ⟨1, [5], [("text", "beta")]⟩,
   ⟨2, [1], [("text", "gamma")]⟩, ⟨3, [4], [("text", "delta")]⟩]

def demoQ : QdrantState := ⟨[("book_knowledge", ⟨384, Distance.cosine, demoPoints⟩)]⟩

def demoW : World := ⟨0, 4⟩

def demoReadySt : BackendState :=
  ⟨⟨true, "All systems ready! 🎉"⟩, [⟨"user", "hi"⟩], some demoDb, demoQ, demoW⟩

def demoInitSt : BackendState := initialBackendState demoQ demoW

def demoLlm : String → String := fun _ => "the answer"

def demoChainErr : String → Except String RagResult := fun _ => .error "boom"

def demoChainOk : String → Except String RagResult :=
  fun _ => .ok ⟨"ans", [⟨"alpha", [("text", "alpha")]⟩]⟩

/-! ### Claim theorems -/

/-- C3: every `add_text(text, metadata)` call returns a fresh id not borne by
any stored point, upserts exactly one point whose payload stores the text
under `"text"`, keeps a caller-supplied timestamp, stamps the current time
when the caller supplied none, and preserves every other caller-supplied
metadata key. -/
theorem add_text_stores_one_fresh_point (db : VectorDatabase) (text : String)
    (m : Option Meta) (q : QdrantState) (w : World) (c : CollectionInfo)
    (hc : assocFind db.collection_name q.collections = some c)
    (hfresh : ∀ p ∈ c.points, p.id < w.nextUuid) :
    ∃ pt : PointStruct,
      (db.add_text text m q w).1 = pt.id ∧
      pt.id = w.nextUuid ∧
      pt.id ∉ c.points.map PointStruct.id ∧
      assocFind db.collection_name ((db.add_text text m q w).2.1).collections =
        some { c with points := c.points ++ [pt] } ∧
      dictGet pt.payload "text" = some text ∧
      (∀ ts, dictGet (m.getD []) "timestamp" = some ts →
        dictGet pt.payload "timestamp" = some ts) ∧
      (dictGet (m.getD []) "timestamp" = none →
        dictGet pt.payload "timestamp" = some ("ts" ++ toString w.tick)) ∧
      (∀ k v, k ≠ "text" → dictGet (m.getD []) k = some v →
        dictGet pt.payload k = some v) := by
  obtain ⟨pt, h1, h2, h3, h4, h5, h6, h7⟩ :=
    add_text_characterization db text m q w c hc hfresh
  refine ⟨pt, h1, h2, ?_, h3, h4, h5, h6, h7⟩
  rw [h2]
  intro hmem
  rcases List.mem_map.mp hmem with ⟨p, hp, hpid⟩
  exact absurd hpid (Nat.ne_of_lt (hfresh p hp))

theorem add_text_stores_one_fresh_point_check :
    (demoDb.add_text "hello" (some [("source", "unit")]) demoQ demoW).1 = 4 := by
  obtain ⟨pt, h1, h2, _⟩ :=
    add_text_stores_one_fresh_point demoDb "hello" (some [("source", "unit")])
      demoQ demoW ⟨384, Distance.cosine, demoPoints⟩ rfl (by decide)
  rw [h1, h2]
  rfl

/-- C4: the claim fails on the code. With `metadatas` absent the Python
default `[{}] * len(texts)` is one shared dict, so the timestamp is stamped
only in the first iteration and every point of the batch carries it:
`add_texts_batch ["a", "b"]` stores both points with timestamp `ts0`, whereas
the spec's per-text default (`add_texts_batch_each`) stamps `ts0` and `ts1`. -/
theorem batch_default_metadata_aliased :
    (demoDb.add_texts_batch ["a", "b"] none demoEmptyQ ⟨0, 0⟩).2.1 =
      ⟨[("book_knowledge", ⟨384, Distance.cosine,
        [⟨0, demoEmbed "a", [("timestamp", "ts0"), ("text", "a")]⟩,
         ⟨1, demoEmbed "b", [("timestamp", "ts0"), ("text", "b")]⟩]⟩)]⟩ ∧
    (demoDb.add_texts_batch_each ["a", "b"] demoEmptyQ ⟨0, 0⟩).2.1 =
      ⟨[("book_knowledge", ⟨384, Distance.cosine,
        [⟨0, demoEmbed "a", [("timestamp", "ts0"), ("text", "a")]⟩,
         ⟨1, demoEmbed "b", [("timestamp", "ts1"), ("text", "b")]⟩]⟩)]⟩ := by
  constructor <;> rfl

theorem assocFind_append_self (name : String) (c : CollectionInfo) :
    ∀ l : List (String × CollectionInfo), name ∉ l.map Prod.fst →
      assocFind name (l ++ [(name, c)]) = some c := by
  intro l
  induction l with
  | nil =>
      intro _
      simp [assocFind]
  | cons hd tl ih =>
      intro h
      obtain ⟨n, c2⟩ := hd
      have hn : n ≠ name := by
        intro hcontr
        exact h (by simp [hcontr])
      simp only [List.cons_append, assocFind]
      rw [if_neg hn]
      exact ih (fun hmem => h (List.mem_cons_of_mem _ hmem))

/-- C5: a batch insertion of `n` texts (with `metadatas` absent or of matching
length) returns exactly `n` pairwise-distinct ids, and `total_points` grows by
exactly `n`. -/
theorem add_texts_batch_counts (db : VectorDatabase) (texts : List String)
    (metadatas : Option (List Meta)) (q : QdrantState) (w : World) (c : CollectionInfo)
    (hc : assocFind db.collection_name q.collections = some c)
    (hfresh : ∀ p ∈ c.points, p.id < w.nextUuid)
    (hm : metadatas = none ∨ ∃ ms, metadatas = some ms ∧ ms.length = texts.length) :
    (db.add_texts_batch texts metadatas q w).1.length = texts.length ∧
    (db.add_texts_batch texts metadatas q w).1.Nodup ∧
    db.get_stats q = .ok ⟨c.points.length, c.points.length, "green"⟩ ∧
    db.get_stats (db.add_texts_batch texts metadatas q w).2.1 =
      .ok ⟨c.points.length + texts.length, c.points.length + texts.length, "green"⟩ := by
  have hstats0 : db.get_stats q = .ok ⟨c.points.length, c.points.length, "green"⟩ := by
    simp [VectorDatabase.get_stats, hc]
  have main : ∀ points : List PointStruct,
      (∀ p ∈ points, w.nextUuid ≤ p.id) →
      (points.map (fun p => p.id)).Nodup →
      points.length = texts.length →
      db.get_stats (q.upsert db.collection_name points) =
        .ok ⟨c.points.length + texts.length, c.points.length + texts.length, "green"⟩ := by
    intro points hlow hnodup hplen
    have hfold : points.foldl upsertPoint c.points = c.points ++ points := by
      apply foldl_upsert_fresh points c.points ?_ hnodup
      intro p hp q2 hq2
      have h1 := hfresh q2 hq2
      have h2 := hlow p hp
      omega
    simp only [VectorDatabase.get_stats, assocFind_upsert, hc, Option.map_some']
    simp [hfold, hplen]
  rcases hm with rfl | ⟨ms, rfl, hms⟩
  · obtain ⟨hlen, hlow, hnodup⟩ := batchLoopShared_facts db.embed texts w []
    have hplen : (VectorDatabase.batchLoopShared db.embed w texts []).1.length =
        texts.length := by simpa using hlen
    exact ⟨hlen, hnodup, hstats0,
      main (VectorDatabase.batchLoopShared db.embed w texts []).1 hlow hnodup hplen⟩
  · obtain ⟨hlen, hlow, hnodup⟩ := batchLoopOwn_facts db.embed (texts.zip ms) w
    have hzip : (texts.zip ms).length = texts.length := by
      rw [List.length_zip, hms, Nat.min_self]
    have hplen : (VectorDatabase.batchLoopOwn db.embed w (texts.zip ms)).1.length =
        texts.length := by
      have := hlen
      rw [List.length_map] at this
      rw [this, hzip]
    refine ⟨?_, hnodup, hstats0,
      main (VectorDatabase.batchLoopOwn db.embed w (texts.zip ms)).1 hlow hnodup hplen⟩
    show ((VectorDatabase.batchLoopOwn db.embed w (texts.zip ms)).1.map
      (fun p => p.id)).length = texts.length
    rw [hlen, hzip]

theorem add_texts_batch_counts_check :
    (demoDb.add_texts_batch ["x", "y"] none demoQ demoW).1.length = 2 ∧
    demoDb.get_stats (demoDb.add_texts_batch ["x", "y"] none demoQ demoW).2.1 =
      .ok ⟨6, 6, "green"⟩ := by
  obtain ⟨h1, _, _, h4⟩ :=
    add_texts_batch_counts demoDb ["x", "y"] none demoQ demoW
      ⟨384, Distance.cosine, demoPoints⟩ rfl (by decide) (Or.inl rfl)
  exact ⟨h1, h4⟩

/-- C6: deleting the collection and then ensuring it yields an empty
collection with the original embedding dimensionality and cosine distance;
ensuring an already-present collection changes nothing. -/
theorem clear_then_ensure (db : VectorDatabase) (q : QdrantState) :
    assocFind db.collection_name
        (db.create_collection_if_not_exists (db.delete_collection q)).collections =
      some ⟨db.embedding_dim, Distance.cosine, []⟩ ∧
    (db.collection_name ∈ q.collections.map Prod.fst →
      db.create_collection_if_not_exists q = q) := by
  constructor
  · have hnot : db.collection_name ∉
        ((db.delete_collection q).collections.map Prod.fst) := by
      intro hmem
      rcases List.mem_map.mp hmem with ⟨nc, hnc, hfst⟩
      have h2 := (List.mem_filter.mp hnc).2
      simp only [decide_eq_true_eq] at h2
      exact h2 hfst
    simp only [VectorDatabase.create_collection_if_not_exists]
    rw [if_neg hnot]
    exact assocFind_append_self _ _ _ hnot
  · intro hmem
    simp only [VectorDatabase.create_collection_if_not_exists]
    rw [if_pos hmem]

theorem clear_then_ensure_check :
    assocFind "book_knowledge"
        (demoDb.create_collection_if_not_exists
          (demoDb.delete_collection demoQ)).collections =
      some ⟨384, Distance.cosine, []⟩ ∧
    demoDb.create_collection_if_not_exists demoQ = demoQ := by
  obtain ⟨h1, h2⟩ := clear_then_ensure demoDb demoQ
  exact ⟨h1, h2 (by simp [demoQ, demoDb])⟩

/-- C8: clearing the chat history always succeeds with `{'success': true}`
and leaves the history empty; clearing again right away succeeds on the
already-empty history and is exactly the same operation (clear ∘ clear =
clear). -/
theorem clear_history_idempotent (st : BackendState) :
    ApiBackend.clear_history st =
      (⟨200, Json.obj [("success", Json.bool true)]⟩, { st with chat_history := [] }) ∧
    (ApiBackend.clear_history (ApiBackend.clear_history st).2).2.chat_history = [] ∧
    ApiBackend.clear_history (ApiBackend.clear_history st).2 =
      ApiBackend.clear_history st := by
  exact ⟨rfl, rfl, rfl⟩

/-- C2: `POST /api/query` status codes: 503 before initialization completes
(and the pipeline is never consulted — the handler's result is the same for
every chain), 400 on a missing or empty `query` field, 500 with
`success: false` and the stringified error when the chain raises, and 200
with `{response, sources, success: true}` on success. -/
theorem query_http_statuses (st : BackendState) (b : Option String)
    (qa : String → Except String RagResult) :
    (st.initialization_status.ready = false →
      ApiBackend.query st b qa =
        (⟨503, .obj [("error", .str "System not ready yet"),
                     ("message", .str st.initialization_status.message)]⟩, st) ∧
      ∀ qa2, ApiBackend.query st b qa = ApiBackend.query st b qa2) ∧
    (st.initialization_status.ready = true → b.getD "" = "" →
      ApiBackend.query st b qa =
        (⟨400, .obj [("error", .str "No query provided")]⟩, st)) ∧
    (∀ uq e, st.initialization_status.ready = true → b.getD "" = uq → uq ≠ "" →
      qa uq = .error e →
      ApiBackend.query st b qa =
        (⟨500, .obj [("error", .str e), ("success", .bool false)]⟩, st)) ∧
    (∀ uq r, st.initialization_status.ready = true → b.getD "" = uq → uq ≠ "" →
      qa uq = .ok r →
      (ApiBackend.query st b qa).1 =
        ⟨200, .obj [("response", .str r.result),
                    ("sources", .arr ((r.source_documents.take 2).map (fun doc =>
                      Json.obj [("content", .str (doc.page_content.take 150)),
                                ("metadata", ApiBackend.metaToJson doc.metadata)]))),
                    ("success", .bool true)]⟩) := by
  refine ⟨?_, ?_, ?_, ?_⟩
  · intro h
    constructor
    · simp [ApiBackend.query, h]
    · intro qa2
      simp [ApiBackend.query, h]
  · intro h hb
    simp [ApiBackend.query, h, hb]
  · intro uq e h hb huq he
    subst hb
    simp [ApiBackend.query, h, huq, he]
  · intro uq r h hb huq hr
    subst hb
    simp [ApiBackend.query, h, huq, hr]

theorem query_http_statuses_check :
    (ApiBackend.query demoInitSt (some "q") demoChainErr).1.code = 503 ∧
    (ApiBackend.query demoReadySt none demoChainErr).1.code = 400 ∧
    (ApiBackend.query demoReadySt (some "q") demoChainErr).1.code = 500 ∧
    (ApiBackend.query demoReadySt (some "q") demoChainOk).1.code = 200 := by
  refine ⟨?_, ?_, ?_, ?_⟩
  · rw [((query_http_statuses demoInitSt (some "q") demoChainErr).1 rfl).1]
  · rw [(query_http_statuses demoReadySt none demoChainErr).2.1 rfl rfl]
  · rw [(query_http_statuses demoReadySt (some "q") demoChainErr).2.2.1 "q" "boom"
      rfl rfl (by decide) rfl]
  · rw [(query_http_statuses demoReadySt (some "q") demoChainOk).2.2.2 "q"
      ⟨"ans", [⟨"alpha", [("text", "alpha")]⟩]⟩ rfl rfl (by decide) rfl]

/-- C9: a successful query appends exactly the user turn and then the
assistant turn to the chat history, leaving earlier entries unchanged; when
the chain raises, the history is left entirely unchanged. -/
theorem query_history_appends (st : BackendState) (b : Option String)
    (qa : String → Except String RagResult) (uq : String)
    (hready : st.initialization_status.ready = true)
    (hb : b.getD "" = uq) (huq : uq ≠ "") :
    (∀ r, qa uq = .ok r →
      (ApiBackend.query st b qa).2.chat_history =
        st.chat_history ++ [⟨"user", uq⟩, ⟨"assistant", r.result⟩]) ∧
    (∀ e, qa uq = .error e →
      (ApiBackend.query st b qa).2.chat_history = st.chat_history) := by
  subst hb
  constructor
  · intro r hr
    simp [ApiBackend.query, hready, huq, hr]
  · intro e he
    simp [ApiBackend.query, hready, huq, he]

theorem query_history_appends_check :
    (ApiBackend.query demoReadySt (some "q") demoChainOk).2.chat_history =
      [⟨"user", "hi"⟩, ⟨"user", "q"⟩, ⟨"assistant", "ans"⟩] ∧
    (ApiBackend.query demoReadySt (some "q") demoChainErr).2.chat_history =
      [⟨"user", "hi"⟩] := by
  constructor
  · rw [(query_history_appends demoReadySt (some "q") demoChainOk "q"
      rfl rfl (by decide)).1 ⟨"ans", [⟨"alpha", [("text", "alpha")]⟩]⟩ rfl]
    rfl
  · rw [(query_history_appends demoReadySt (some "q") demoChainErr "q"
      rfl rfl (by decide)).2 "boom" rfl]
    rfl

/-- C10: a full-screen capture with the store ready rejects extracted text
whose strip is shorter than 10 characters (`success: false`, "No meaningful
text found", store untouched); otherwise it adds exactly one point carrying
the text and answers `success: true` with `text_length` equal to the length
of the extracted text. -/
theorem capture_full_contract (st : BackendState) (db : VectorDatabase)
    (text : String) (c : CollectionInfo)
    (hdb : st.vector_db = some db)
    (hc : assocFind db.collection_name st.qdrant.collections = some c)
    (hfresh : ∀ p ∈ c.points, p.id < st.world.nextUuid) :
    ((pyStrip text).length < 10 →
      ApiBackend.capture_full_screen st (.ok text) =
        (⟨200, .obj [("success", .bool false),
                     ("message", .str "No meaningful text found")]⟩, st)) ∧
    (10 ≤ (pyStrip text).length →
      (ApiBackend.capture_full_screen st (.ok text)).1 =
        ⟨200, .obj [("success", .bool true),
                    ("message", .str ("Captured " ++ toString text.length
                      ++ " characters")),
                    ("text_length", .num text.length)]⟩ ∧
      ∃ pt : PointStruct,
        assocFind db.collection_name
            ((ApiBackend.capture_full_screen st (.ok text)).2.qdrant).collections =
          some { c with points := c.points ++ [pt] } ∧
        dictGet pt.payload "text" = some text) := by
  constructor
  · intro h
    simp [ApiBackend.capture_full_screen, hdb, h]
  · intro h
    have hne : ¬(text = "" ∨ (pyStrip text).length < 10) := by
      rintro (rfl | hlt)
      · exact absurd h (by decide)
      · omega
    constructor
    · simp [ApiBackend.capture_full_screen, hdb, hne]
    · obtain ⟨pt, _, _, h3, h4, _, _, _⟩ :=
        add_text_characterization db text (some [("source", "screenshot_full")])
          st.qdrant st.world c hc hfresh
      refine ⟨pt, ?_, h4⟩
      simp only [ApiBackend.capture_full_screen, hdb]
      rw [if_neg hne]
      exact h3

theorem capture_full_contract_check :
    ApiBackend.capture_full_screen demoReadySt (.ok "   tiny   ") =
      (⟨200, .obj [("success", .bool false),
                   ("message", .str "No meaningful text found")]⟩, demoReadySt) ∧
    (ApiBackend.capture_full_screen demoReadySt
        (.ok "a reasonably long capture")).1.code = 200 := by
  constructor
  · exact (capture_full_contract demoReadySt demoDb "   tiny   "
      ⟨384, Distance.cosine, demoPoints⟩ rfl rfl (by decide)).1 (by decide)
  · rw [((capture_full_contract demoReadySt demoDb "a reasonably long capture"
      ⟨384, Distance.cosine, demoPoints⟩ rfl rfl (by decide)).2 (by decide)).1]

theorem applyEvent_status (st : BackendState) (e : ApiBackend.Event)
    (h : e.isInit = false) :
    (ApiBackend.applyEvent st e).initialization_status = st.initialization_status := by
  cases e with
  | initComplete o => simp [ApiBackend.Event.isInit] at h
  | healthReq => rfl
  | queryReq b qa =>
      show (ApiBackend.query st b qa).2.initialization_status = _
      rcases hr : st.initialization_status.ready with _ | _
      · simp [ApiBackend.query, hr]
      · by_cases h2 : b.getD "" = ""
        · simp [ApiBackend.query, hr, h2]
        · rcases hq : qa (b.getD "") with e | r <;>
            simp [ApiBackend.query, hr, h2, hq]
  | captureReq o =>
      show (ApiBackend.capture_full_screen st o).2.initialization_status = _
      rcases hdb : st.vector_db with _ | db
      · simp [ApiBackend.capture_full_screen, hdb]
      · rcases o with e | text
        · simp [ApiBackend.capture_full_screen, hdb]
        · by_cases hcond : text = "" ∨ (pyStrip text).length < 10 <;>
            simp [ApiBackend.capture_full_screen, hdb, hcond]
  | statsReq =>
      show (ApiBackend.get_stats st).2.initialization_status = _
      rcases hdb : st.vector_db with _ | db
      · simp [ApiBackend.get_stats, hdb]
      · rcases hs : db.get_stats st.qdrant with e | s <;>
          simp [ApiBackend.get_stats, hdb, hs]
  | historyGetReq => rfl
  | historyClearReq => rfl
  | databaseClearReq =>
      show (ApiBackend.clear_database st).2.initialization_status = _
      rcases hdb : st.vector_db with _ | db <;>
        simp [ApiBackend.clear_database, hdb]

theorem foldl_applyEvent_status (es : List ApiBackend.Event) :
    ∀ st : BackendState, (∀ e ∈ es, e.isInit = false) →
      (es.foldl ApiBackend.applyEvent st).initialization_status =
        st.initialization_status := by
  induction es with
  | nil =>
      intro st _
      rfl
  | cons e es ih =>
      intro st h
      rw [List.foldl_cons]
      rw [ih _ (fun x hx => h x (List.mem_cons_of_mem _ hx))]
      exact applyEvent_status st e (h e (List.mem_cons_self e es))

/-- C7: the process starts in the "Initializing..." state; no request handler
ever writes the initialization status; the single background-initialization
completion moves it to ready-with-success-message on success and to a
non-ready error state on failure; and along any subsequent sequence of
requests the status never changes again (ready never reverts, a failed
initialization is terminal). -/
theorem initialization_status_transitions_once (q : QdrantState) (w : World)
    (outcome : Except String VectorDatabase) (es : List ApiBackend.Event)
    (hes : ∀ e ∈ es, e.isInit = false) :
    (initialBackendState q w).initialization_status = ⟨false, "Initializing..."⟩ ∧
    (∀ (st : BackendState) (e : ApiBackend.Event), e.isInit = false →
      (ApiBackend.applyEvent st e).initialization_status =
        st.initialization_status) ∧
    (∀ db2, (ApiBackend.applyEvent (initialBackendState q w)
        (ApiBackend.Event.initComplete (.ok db2))).initialization_status =
      ⟨true, "All systems ready! 🎉"⟩) ∧
    (∀ err, (ApiBackend.applyEvent (initialBackendState q w)
        (ApiBackend.Event.initComplete (.error err))).initialization_status =
      ⟨false, "Error: " ++ err⟩) ∧
    (es.foldl ApiBackend.applyEvent
        (ApiBackend.applyEvent (initialBackendState q w)
          (ApiBackend.Event.initComplete outcome))).initialization_status =
      (ApiBackend.applyEvent (initialBackendState q w)
        (ApiBackend.Event.initComplete outcome)).initialization_status :=
  ⟨rfl, fun st e h => applyEvent_status st e h, fun _ => rfl, fun _ => rfl,
    foldl_applyEvent_status es _ hes⟩

theorem initialization_status_transitions_once_check :
    ([ApiBackend.Event.healthReq, ApiBackend.Event.historyClearReq].foldl
        ApiBackend.applyEvent
        (ApiBackend.applyEvent (initialBackendState demoQ demoW)
          (ApiBackend.Event.initComplete (.error "boom")))).initialization_status =
      ⟨false, "Error: boom"⟩ := by
  obtain ⟨h1, h2, h3, h4, h5⟩ :=
    initialization_status_transitions_once demoQ demoW (.error "boom")
      [ApiBackend.Event.healthReq, ApiBackend.Event.historyClearReq]
      (by
        intro e he
        simp only [List.mem_cons, List.not_mem_nil, or_false] at he
        rcases he with rfl | rfl
        · rfl
        · rfl)
  rw [h5, h4]
  rfl

/-- C1: for every answered query, the retriever fetches the top-3 stored
records nearest to the question (at most 3; exactly 3 when at least 3 are
stored; every retrieved record is stored and scores at least as high as every
stored record left out), the language model is invoked exactly once, and the
HTTP result carries at most 2 source entries, the i-th being the first
at-most-150 characters of the i-th retrieved document's content together with
its metadata. -/
theorem rag_query_pipeline (db : VectorDatabase) (llm : String → String)
    (st : BackendState) (question : String) (c : CollectionInfo)
    (hready : st.initialization_status.ready = true)
    (hq : question ≠ "")
    (hc : assocFind db.collection_name st.qdrant.collections = some c) :
    (retrieveTop3 db st.qdrant question).length ≤ 3 ∧
    (3 ≤ c.points.length → (retrieveTop3 db st.qdrant question).length = 3) ∧
    (∀ p ∈ retrieveTop3 db st.qdrant question, p ∈ c.points) ∧
    (∀ p ∈ retrieveTop3 db st.qdrant question, ∀ p2 ∈ c.points,
      p2 ∉ retrieveTop3 db st.qdrant question →
      simScore (db.embed question) p2 ≤ simScore (db.embed question) p) ∧
    (qa_chain_invoke db llm st.qdrant question).source_documents =
      (retrieveTop3 db st.qdrant question).map pointToDocument ∧
    (qa_chain_invoke db llm st.qdrant question).llm_calls = 1 ∧
    ((qa_chain_invoke db llm st.qdrant question).source_documents.take 2).length ≤ 2 ∧
    (ApiBackend.query st (some question) (qaChainOf db llm st.qdrant)).1 =
      ⟨200, .obj [("response",
                    .str (qa_chain_invoke db llm st.qdrant question).result),
                  ("sources", .arr
                    (((qa_chain_invoke db llm st.qdrant question).source_documents.take
                        2).map
                      (fun doc => Json.obj
                        [("content", .str (doc.page_content.take 150)),
                         ("metadata", ApiBackend.metaToJson doc.metadata)]))),
                  ("success", .bool true)]⟩ := by
  have hret : retrieveTop3 db st.qdrant question =
      (List.insertionSort (scoreRel (simScore (db.embed question))) c.points).take 3 := by
    simp [retrieveTop3, hc]
  have hsorted := List.sorted_insertionSort
    (scoreRel (simScore (db.embed question))) c.points
  refine ⟨?_, ?_, ?_, ?_, rfl, rfl, ?_, ?_⟩
  · rw [hret, List.length_take]
    exact min_le_left _ _
  · intro h3
    rw [hret, List.length_take, List.length_insertionSort]
    exact min_eq_left h3
  · intro p hp
    rw [hret] at hp
    exact (List.mem_insertionSort _).1 (List.mem_of_mem_take hp)
  · intro p hp p2 hp2 hnot
    rw [hret] at hp hnot
    have hs : p2 ∈ List.insertionSort (scoreRel (simScore (db.embed question)))
        c.points := (List.mem_insertionSort _).2 hp2
    rw [← List.take_append_drop 3
      (List.insertionSort (scoreRel (simScore (db.embed question))) c.points)] at hs
    rcases List.mem_append.mp hs with h2 | h2
    · exact absurd h2 hnot
    · have hpair : List.Pairwise (scoreRel (simScore (db.embed question)))
          ((List.insertionSort (scoreRel (simScore (db.embed question)))
             c.points).take 3 ++
           (List.insertionSort (scoreRel (simScore (db.embed question)))
             c.points).drop 3) := by
        rw [List.take_append_drop]
        exact hsorted
      exact (List.pairwise_append.mp hpair).2.2 p hp p2 h2
  · rw [List.length_take]
    exact min_le_left _ _
  · simp [ApiBackend.query, hready, hq, qaChainOf]

theorem rag_query_pipeline_check :
    (retrieveTop3 demoDb demoQ "q").length ≤ 3 ∧
    (qa_chain_invoke demoDb demoLlm demoQ "q").llm_calls = 1 ∧
    (ApiBackend.query demoReadySt (some "q") (qaChainOf demoDb demoLlm demoQ)).1.code =
      200 := by
  obtain ⟨h1, _, _, _, _, h6, _, h8⟩ :=
    rag_query_pipeline demoDb demoLlm demoReadySt "q" ⟨384, Distance.cosine, demoPoints⟩
      rfl (by decide) rfl
  refine ⟨h1, h6, ?_⟩
  show (ApiBackend.query demoReadySt (some "q")
    (qaChainOf demoDb demoLlm demoReadySt.qdrant)).1.code = 200
  rw [h8]
